import Mathlib

/-!
Shallow embedding of the StreetViewImageClassification repository
(`src/baseline.py` and `src/predict.py`) and verification of its
natural-language specification.

Conventions of the embedding:
* an image tensor is a `List ℚ` (its contents are mostly opaque to the
  control flow being verified);
* a model's forward pass is a function `Image → Scores` (one score per
  class), parameterised by an abstract parameter type `P`;
* PyTorch / scipy / albumentations library values that the code merely
  calls (CrossEntropyLoss, SGD step, the augmentation pipeline `trfm`,
  the accuracy metric) are abstract parameters of the embedding;
* Python runtime failures (uncaught exceptions) are values of `PyError`
  and functions that can fail return `Except PyError _`.
-/

abbrev Image : Type := List ℚ

abbrev Scores : Type := List ℚ

/-- A collated batch: parallel image and label tensors, as produced by a
`DataLoader` and consumed by `Model.fit` / `Model.evaluation`. -/
structure Batch where
  images : List Image
  labels : List Nat
deriving DecidableEq, Repr

/-- Loss function value: `loss_criterion(y_pred, y)` maps the batch of
score rows and the label tensor to a scalar. -/
abbrev LossFn : Type := List Scores → List Nat → ℚ

/-- One optimizer step (`loss.backward(); optimizer.step()`): updates the
parameters from the current parameters and the batch. -/
abbrev OptStep (P : Type) : Type := P → Batch → P

/-- Python exceptions that can escape the embedded code. -/
inductive PyError where
  | invalidArguments
  | typeError
  | attributeError
  | zeroDivision
deriving DecidableEq, Repr

/-- A `Union[str, X]` argument as Python sees it: either a raw string or
an already-constructed library object. -/
inductive PyVal (X : Type) where
  | str (s : String)
  | fn (f : X)

/-- `torch.argmax(dim=1)` over one score row, running index scan:
`argmaxGo rest i best bestVal` where `i` is the index of the head of
`rest` and `best` holds the index of the first maximal value seen. -/
def argmaxGo : List ℚ → Nat → Nat → ℚ → Nat
  | [], _, b, _ => b
  | q :: qs, i, b, bv => if bv < q then argmaxGo qs (i + 1) i q else argmaxGo qs (i + 1) b bv

/-- Index of the first maximal score (`torch.argmax` on one row). -/
def argmaxIdx : List ℚ → Nat
  | [] => 0
  | q :: qs => argmaxGo qs 1 0 q

/-- `Model.predict` (src/baseline.py lines 113–119): runs the forward
pass on every image of the batch and returns the arg-max class indices
as a plain list. -/
def predictLabels (forward : Image → Scores) (X : List Image) : List Nat :=
  X.map (fun x => argmaxIdx (forward x))

/-- `(y_pred.argmax(dim=1) == y).sum()`: how many samples of the batch
the score rows classify correctly. -/
def countCorrect (preds : List Scores) (labels : List Nat) : Nat :=
  ((preds.map argmaxIdx).zip labels).countP (fun p => p.1 == p.2)

/-- Scan of `scipy.stats.mode`: keep the current best value `b`, replace
it by `v` when `v` has a strictly larger count or an equal count and a
smaller value (scipy returns the smallest of tied modes). -/
def modeGo (l : List Nat) (b : Nat) : List Nat → Nat
  | [] => b
  | v :: vs =>
      modeGo l (if l.count b < l.count v ∨ (l.count v = l.count b ∧ v < b) then v else b) vs

/-- `scipy.stats.mode` of a 1-D collection: the most frequent value,
ties broken towards the numerically smallest (per the scipy docs). -/
def listMode (l : List Nat) : Nat :=
  match l with
  | [] => 0
  | h :: t => modeGo l h t

/-- `scipy.stats.mode(pred_y_list)[0][0]` where `pred_y_list` is a list
of rows: mode along axis 0 (per column), then the first column's mode. -/
def scipyModeFirst (ls : List (List Nat)) : Nat :=
  ((ls.transpose).map listMode).headD 0

-- Basic facts about the argmax scan: its result stays within bounds.

theorem argmaxGo_lt (qs : List ℚ) : ∀ (i b : Nat) (bv : ℚ), b < i →
    argmaxGo qs i b bv < i + qs.length := by
  induction qs with
  | nil => intro i b bv h; simpa [argmaxGo] using h
  | cons q qs ih =>
      intro i b bv h
      simp only [argmaxGo]
      by_cases hc : bv < q
      · have := ih (i + 1) i q (Nat.lt_succ_self i)
        simp only [if_pos hc, List.length_cons]
        omega
      · have := ih (i + 1) b bv (Nat.lt_succ_of_lt h)
        simp only [if_neg hc, List.length_cons]
        omega

theorem argmaxIdx_lt_length (l : List ℚ) (h : l ≠ []) : argmaxIdx l < l.length := by
  match l, h with
  | q :: qs, _ =>
      have := argmaxGo_lt qs 1 0 q (Nat.zero_lt_one)
      simpa [argmaxIdx, Nat.add_comm] using this

-- The scipy mode scan returns an element of maximal count, preferring the
-- numerically smallest among tied counts.

theorem modeGo_best (l : List Nat) : ∀ (vs : List Nat) (b : Nat),
    modeGo l b vs ∈ b :: vs
    ∧ ∀ v ∈ b :: vs, l.count v ≤ l.count (modeGo l b vs)
        ∧ (l.count v = l.count (modeGo l b vs) → modeGo l b vs ≤ v) := by
  intro vs
  induction vs with
  | nil =>
      intro b
      refine ⟨by simp [modeGo], ?_⟩
      intro v hv
      simp only [List.mem_cons, List.not_mem_nil, or_false] at hv
      subst hv
      exact ⟨le_refl _, fun _ => le_refl _⟩
  | cons v vs ih =>
      intro b
      simp only [modeGo]
      by_cases hc : l.count b < l.count v ∨ (l.count v = l.count b ∧ v < b)
      · simp only [if_pos hc]
        obtain ⟨ihmem, ihbest⟩ := ih v
        have hvr := ihbest v (List.mem_cons_self v vs)
        constructor
        · exact List.mem_cons_of_mem b ihmem
        · intro w hw
          rcases List.mem_cons.mp hw with h | h
          · subst h
            have hcb : l.count w ≤ l.count v ∧ (l.count w = l.count v → v ≤ w) := by
              rcases hc with h1 | ⟨h1, h2⟩
              · exact ⟨Nat.le_of_lt h1, fun he => absurd he (Nat.ne_of_lt h1)⟩
              · exact ⟨Nat.le_of_eq h1.symm, fun _ => Nat.le_of_lt h2⟩
            refine ⟨le_trans hcb.1 hvr.1, fun he => ?_⟩
            have e1 : l.count w = l.count v := le_antisymm hcb.1 (he ▸ hvr.1)
            have e2 : l.count v = l.count (modeGo l v vs) := by omega
            exact le_trans (hvr.2 e2) (hcb.2 e1)
          · exact ihbest w h
      · simp only [if_neg hc]
        push_neg at hc
        obtain ⟨ihmem, ihbest⟩ := ih b
        have hbr := ihbest b (List.mem_cons_self b vs)
        constructor
        · rcases List.mem_cons.mp ihmem with h | h
          · rw [h]; exact List.mem_cons_self b (v :: vs)
          · exact List.mem_cons_of_mem b (List.mem_cons_of_mem v h)
        · intro w hw
          rcases List.mem_cons.mp hw with h | h
          · subst h; exact ihbest w (List.mem_cons_self w vs)
          rcases List.mem_cons.mp h with h2 | h2
          · subst h2
            have hcb : l.count w ≤ l.count b ∧ (l.count w = l.count b → b ≤ w) := hc
            refine ⟨le_trans hcb.1 hbr.1, fun he => ?_⟩
            have e1 : l.count w = l.count b := le_antisymm hcb.1 (he ▸ hbr.1)
            have e2 : l.count b = l.count (modeGo l b vs) := by omega
            exact le_trans (hbr.2 e2) (hcb.2 e1)
          · exact ihbest w (List.mem_cons_of_mem b h2)

theorem listMode_best (l : List Nat) (h : l ≠ []) :
    listMode l ∈ l ∧ ∀ v ∈ l, l.count v ≤ l.count (listMode l)
      ∧ (l.count v = l.count (listMode l) → listMode l ≤ v) := by
  match l, h with
  | h0 :: t, _ =>
      have := modeGo_best (h0 :: t) t h0
      simpa [listMode] using this

/-- Majority-vote scan that keeps the first-encountered value among tied
counts (used by the spec-modelled ensemble reduction). -/
def modeFirstGo (l : List Nat) (b : Nat) : List Nat → Nat
  | [] => b
  | v :: vs => modeFirstGo l (if l.count b < l.count v then v else b) vs

/-- Most frequent value of a list, ties broken towards the
first-encountered value. -/
def modeFirstSeen (l : List Nat) : Nat :=
  match l with
  | [] => 0
  | h :: t => modeFirstGo l h t

theorem modeFirstGo_best (l : List Nat) : ∀ (vs : List Nat) (b : Nat),
    modeFirstGo l b vs ∈ b :: vs
    ∧ ∀ v ∈ b :: vs, l.count v ≤ l.count (modeFirstGo l b vs) := by
  intro vs
  induction vs with
  | nil =>
      intro b
      refine ⟨by simp [modeFirstGo], ?_⟩
      intro v hv
      simp only [List.mem_cons, List.not_mem_nil, or_false] at hv
      subst hv
      exact le_refl _
  | cons v vs ih =>
      intro b
      simp only [modeFirstGo]
      by_cases hc : l.count b < l.count v
      · simp only [if_pos hc]
        obtain ⟨ihmem, ihbest⟩ := ih v
        refine ⟨List.mem_cons_of_mem b ihmem, ?_⟩
        intro w hw
        rcases List.mem_cons.mp hw with h | h
        · subst h
          exact le_trans (Nat.le_of_lt hc) (ihbest v (List.mem_cons_self v vs))
        · exact ihbest w h
      · simp only [if_neg hc]
        obtain ⟨ihmem, ihbest⟩ := ih b
        constructor
        · rcases List.mem_cons.mp ihmem with h | h
          · rw [h]; exact List.mem_cons_self b (v :: vs)
          · exact List.mem_cons_of_mem b (List.mem_cons_of_mem v h)
        · intro w hw
          rcases List.mem_cons.mp hw with h | h
          · subst h; exact ihbest w (List.mem_cons_self w vs)
          rcases List.mem_cons.mp h with h2 | h2
          · subst h2
            exact le_trans (Nat.le_of_not_lt hc) (ihbest b (List.mem_cons_self b vs))
          · exact ihbest w (List.mem_cons_of_mem b h2)

theorem modeFirstSeen_best (l : List Nat) (h : l ≠ []) :
    modeFirstSeen l ∈ l ∧ ∀ v ∈ l, l.count v ≤ l.count (modeFirstSeen l) := by
  match l, h with
  | h0 :: t, _ =>
      have := modeFirstGo_best (h0 :: t) t h0
      simpa [modeFirstSeen] using this

theorem count_add_count_le (l : List Nat) (a b : Nat) (hab : a ≠ b) :
    l.count a + l.count b ≤ l.length := by
  induction l with
  | nil => simp
  | cons x xs ih =>
      simp only [List.count_cons, List.length_cons, beq_iff_eq]
      split_ifs <;> omega

/-- Strict majority wins the first-seen majority vote. -/
theorem modeFirstSeen_majority (l : List Nat) (a : Nat)
    (h : l.length < 2 * l.count a) : modeFirstSeen l = a := by
  have hpos : 0 < l.count a := by
    rcases Nat.eq_zero_or_pos (l.count a) with h0 | h0
    · rw [h0] at h; omega
    · exact h0
  have ha : a ∈ l := List.count_pos_iff.mp hpos
  have hne : l ≠ [] := fun he => by subst he; simp at ha
  obtain ⟨hmem, hbest⟩ := modeFirstSeen_best l hne
  by_contra hma
  have hsum := count_add_count_le l (modeFirstSeen l) a hma
  have := hbest a ha
  omega

/-- ASCII lowercase of one character. -/
def lowerChar (c : Char) : Char :=
  if 65 ≤ c.toNat ∧ c.toNat ≤ 90 then Char.ofNat (c.toNat + 32) else c

/-- Python `str.lower()` for the ASCII dispatch names compared by
`Model.fit` (`"cross_entropy"`, `"sgd"`). -/
def pyLower (s : String) : String := String.mk (s.data.map lowerChar)

/-- String dispatch of the `loss_criterion` argument (src/baseline.py
lines 49–51): only the name `"cross_entropy"` (case-insensitive) is
replaced by the library loss object; any other string is left as is. -/
def resolveLoss (crossEntropy : LossFn) : PyVal LossFn → PyVal LossFn
  | .str s => if pyLower s = "cross_entropy" then .fn crossEntropy else .str s
  | .fn f => .fn f

/-- String dispatch of the `optimizer` argument (src/baseline.py lines
53–55): only the name `"sgd"` (case-insensitive) is replaced by the
constructed SGD optimizer; any other string is left as is. -/
def resolveOpt {P : Type} (sgd : OptStep P) : PyVal (OptStep P) → PyVal (OptStep P)
  | .str s => if pyLower s = "sgd" then .fn sgd else .str s
  | .fn f => .fn f

/-- Python truthiness of the `loss_criterion` value tested by
`if loss_criterion:` in `Model.evaluation`. -/
def lossTruthy {X : Type} : Option (PyVal X) → Bool
  | none => false
  | some (.str s) => !(s == "")
  | some (.fn _) => true

/-- Three-digit zero padding for the fractional part of `"%.3f"`. -/
def padZeros3 (n : Nat) : String :=
  if n < 10 then "00" ++ toString n
  else if n < 100 then "0" ++ toString n
  else toString n

/-- The `"%.3f"` formatting used in the checkpoint filename: round to
the nearest thousandth (no tie arises at the values considered here) and
print with exactly three fractional digits. -/
def format3 (q : ℚ) : String :=
  let r : ℤ := ⌊q * 1000 + 1 / 2⌋
  let sign := if r < 0 then "-" else ""
  sign ++ toString (r.natAbs / 1000) ++ "." ++ padZeros3 (r.natAbs % 1000)

/-- The checkpoint path written by `Model.fit` (src/baseline.py lines
91–101): `"%s/epoch%d_trainloss%.3f_validloss%.3f_trainacc%.3f_validacc%.3f.pth"`
applied to `epoch + 1` and the four running statistics. -/
def checkpointName (savePath : String) (epochNum : Nat)
    (trainLoss validLoss trainAcc validAcc : ℚ) : String :=
  savePath ++ "/epoch" ++ toString epochNum
    ++ "_trainloss" ++ format3 trainLoss
    ++ "_validloss" ++ format3 validLoss
    ++ "_trainacc" ++ format3 trainAcc
    ++ "_validacc" ++ format3 validAcc ++ ".pth"

/-- Accumulator of `Model.evaluation`: the augmentation RNG state and
the variables `y_true`, `y_pred`, `eval_loss_sum`, `batch_count`. -/
structure EvalAcc (σ : Type) where
  rng : σ
  yTrue : List Nat
  yPred : List Nat
  lossSum : ℚ
  batchCount : Nat

/-- One TTA sample (src/baseline.py lines 129–141): augment the original
sample five times with the global pipeline (the RNG state advances with
every call), predict each single-image batch individually, and reduce
the stacked per-copy predictions with `scipy.stats.mode(...)[0][0]`. -/
def ttaOneSample {σ : Type} (forward : Image → Scores)
    (trfmF : σ → Image → Image × σ) (s0 : σ) (x : Image) : Nat × σ :=
  let r1 := trfmF s0 x
  let r2 := trfmF r1.2 x
  let r3 := trfmF r2.2 x
  let r4 := trfmF r3.2 x
  let r5 := trfmF r4.2 x
  let predY1 := predictLabels forward [r1.1]
  let predY2 := predictLabels forward [r2.1]
  let predY3 := predictLabels forward [r3.1]
  let predY4 := predictLabels forward [r4.1]
  let predY5 := predictLabels forward [r5.1]
  (scipyModeFirst [predY1, predY2, predY3, predY4, predY5], r5.2)

/-- The five augmented copies of one sample: five sequential applications
of the augmentation pipeline, each to the original sample. -/
def ttaCopies {σ : Type} (trfmF : σ → Image → Image × σ) (s0 : σ)
    (x : Image) : List Image × σ :=
  let r1 := trfmF s0 x
  let r2 := trfmF r1.2 x
  let r3 := trfmF r2.2 x
  let r4 := trfmF r3.2 x
  let r5 := trfmF r4.2 x
  ([r1.1, r2.1, r3.1, r4.1, r5.1], r5.2)

/-- TTA over all samples of one batch (`for single_X in X`), threading
the augmentation RNG state. -/
def ttaBatch {σ : Type} (forward : Image → Scores)
    (trfmF : σ → Image → Image × σ) : σ → List Image → List Nat × σ
  | s, [] => ([], s)
  | s, x :: xs =>
      let r := ttaOneSample forward trfmF s x
      let rest := ttaBatch forward trfmF r.2 xs
      (r.1 :: rest.1, rest.2)

/-- The batch loop of `Model.evaluation` (src/baseline.py lines
125–149). Applying a raw string as a loss function raises `TypeError`. -/
def evalLoop {σ : Type} (forward : Image → Scores)
    (lossC : Option (PyVal LossFn)) (tta : Bool)
    (trfmF : σ → Image → Image × σ) :
    List Batch → EvalAcc σ → Except PyError (EvalAcc σ)
  | [], acc => .ok acc
  | b :: bs, acc =>
      let acc1 : EvalAcc σ := { acc with yTrue := acc.yTrue ++ b.labels }
      if tta then
        let r := ttaBatch forward trfmF acc1.rng b.images
        evalLoop forward lossC tta trfmF bs
          { acc1 with rng := r.2, yPred := acc1.yPred ++ r.1 }
      else
        let acc2 : EvalAcc σ := { acc1 with yPred := acc1.yPred ++ predictLabels forward b.images }
        match lossC with
        | some (.fn f) =>
            evalLoop forward lossC tta trfmF bs
              { acc2 with lossSum := acc2.lossSum + f (b.images.map forward) b.labels,
                          batchCount := acc2.batchCount + 1 }
        | some (.str s) =>
            if s = "" then
              evalLoop forward lossC tta trfmF bs { acc2 with batchCount := acc2.batchCount + 1 }
            else .error .typeError
        | none =>
            evalLoop forward lossC tta trfmF bs { acc2 with batchCount := acc2.batchCount + 1 }

/-- `Model.evaluation` (src/baseline.py lines 121–155). The
`calculate_classification_score` helper lives in `utils.py` (not under
src/) and is abstracted as the `scoreFn` parameter; the albumentations
pipeline `trfm` is abstracted as `trfmF` over an RNG state `σ`. The
result pair models the Python return value: the second component is
`none` when only the score is returned. A zero `batch_count` under a
truthy loss makes the final division raise `ZeroDivisionError`. -/
def evaluation {σ : Type} (forward : Image → Scores)
    (scoreFn : List Nat → List Nat → ℚ) (testIter : List Batch)
    (lossC : Option (PyVal LossFn)) (tta : Bool)
    (trfmF : σ → Image → Image × σ) (s0 : σ) : Except PyError (ℚ × Option ℚ) :=
  match evalLoop forward lossC tta trfmF testIter ⟨s0, [], [], 0, 0⟩ with
  | .error e => .error e
  | .ok acc =>
      let scoreVal := scoreFn acc.yTrue acc.yPred
      if lossTruthy lossC then
        if acc.batchCount = 0 then .error .zeroDivision
        else .ok (scoreVal, some (acc.lossSum / (acc.batchCount : ℚ)))
      else .ok (scoreVal, none)

/-- Accumulator of the inner training loop of `Model.fit`: the model
parameters and the variables `train_loss_sum`, `train_acc_sum`,
`batch_count`, `n`. -/
structure TrainAcc (P : Type) where
  params : P
  lossSum : ℚ
  accSum : Nat
  batchCount : Nat
  n : Nat

/-- Per-epoch observable outcome of `Model.fit`: the printed statistics
and the checkpoint path written for this epoch, if any. -/
structure EpochRecord where
  epochIdx : Nat
  trainLoss : ℚ
  validLoss : ℚ
  trainAcc : ℚ
  validAcc : ℚ
  checkpoint : Option String
deriving DecidableEq, Repr

/-- One body of the training loop (src/baseline.py lines 67–83): forward
pass, loss, backward and optimizer step, statistics update. Calling a
raw string as a loss raises `TypeError`; calling `.zero_grad()` on a raw
string optimizer raises `AttributeError`. -/
def trainBatch {P : Type} (forward : P → Image → Scores)
    (lossR : PyVal LossFn) (optR : PyVal (OptStep P))
    (st : TrainAcc P) (b : Batch) : Except PyError (TrainAcc P) :=
  let preds := b.images.map (forward st.params)
  match lossR with
  | .str _ => .error .typeError
  | .fn f =>
      match optR with
      | .str _ => .error .attributeError
      | .fn step =>
          .ok { params := step st.params b,
                lossSum := st.lossSum + f preds b.labels,
                accSum := st.accSum + countCorrect preds b.labels,
                batchCount := st.batchCount + 1,
                n := st.n + b.labels.length }

/-- The inner `for idx, (X, y) in enumerate(train_iter)` loop. -/
def trainLoop {P : Type} (forward : P → Image → Scores)
    (lossR : PyVal LossFn) (optR : PyVal (OptStep P)) :
    List Batch → TrainAcc P → Except PyError (TrainAcc P)
  | [], st => .ok st
  | b :: bs, st =>
      match trainBatch forward lossR optR st b with
      | .error e => .error e
      | .ok st' => trainLoop forward lossR optR bs st'

/-- Epoch index sequence (src/baseline.py line 62):
`range(num_epochs, num_epochs + checkpoint_epochs) if checkpoint_epochs
else range(num_epochs)`; a `None` or `0` value of `checkpoint_epochs` is
falsy. -/
def epochIndices (numEpochs : Nat) (checkpointEpochs : Option Nat) : List Nat :=
  match checkpointEpochs with
  | some k => if k = 0 then List.range numEpochs else List.range' numEpochs k
  | none => List.range numEpochs

/-- One epoch of `Model.fit` (src/baseline.py lines 63–101): train over
every batch, evaluate on the validation stream (with the resolved loss
and `TTA=False`), compute the printed statistics (`ZeroDivisionError`
when the train stream contributed no samples or no batches), and build
the checkpoint path when `model_save_path` is given. Unpacking a
score-only evaluation result raises `TypeError`. -/
def runEpoch {P : Type} (forward : P → Image → Scores)
    (accuracyScore : List Nat → List Nat → ℚ)
    (lossR : PyVal LossFn) (optR : PyVal (OptStep P))
    (train valid : List Batch) (savePath : Option String) (epoch : Nat)
    (p : P) : Except PyError (P × EpochRecord) :=
  match trainLoop forward lossR optR train ⟨p, 0, 0, 0, 0⟩ with
  | .error e => .error e
  | .ok st =>
      match evaluation (forward st.params) accuracyScore valid (some lossR) false
          (fun (s : Unit) x => (x, s)) () with
      | .error e => .error e
      | .ok ev =>
          match ev.2 with
          | none => .error .typeError
          | some validLoss =>
              if st.n = 0 then .error .zeroDivision
              else if st.batchCount = 0 then .error .zeroDivision
              else
                let trainAcc := (st.accSum : ℚ) / (st.n : ℚ)
                let trainLoss := st.lossSum / (st.batchCount : ℚ)
                .ok (st.params,
                  { epochIdx := epoch, trainLoss := trainLoss,
                    validLoss := validLoss, trainAcc := trainAcc,
                    validAcc := ev.1,
                    checkpoint := savePath.map (fun sp =>
                      checkpointName sp (epoch + 1) trainLoss validLoss
                        trainAcc ev.1) })

/-- The `for epoch in epoch_iter` loop of `Model.fit`, collecting the
per-epoch records. -/
def fitLoop {P : Type} (forward : P → Image → Scores)
    (accuracyScore : List Nat → List Nat → ℚ)
    (lossR : PyVal LossFn) (optR : PyVal (OptStep P))
    (train valid : List Batch) (savePath : Option String) :
    List Nat → P → Except PyError (P × List EpochRecord)
  | [], p => .ok (p, [])
  | e :: es, p =>
      match runEpoch forward accuracyScore lossR optR train valid savePath e p with
      | .error err => .error err
      | .ok r =>
          match fitLoop forward accuracyScore lossR optR train valid savePath es r.1 with
          | .error err => .error err
          | .ok rest => .ok (rest.1, r.2 :: rest.2)

/-- `Model.fit` (src/baseline.py lines 31–111). The PyTorch library
values are abstract parameters: `forward` is the network applied to one
image, `crossEntropy` the `torch.nn.CrossEntropyLoss()` object, `mkSgd
lr wd` the step of `optim.SGD(params, lr=lr, weight_decay=wd)` (the
code fixes `wd = 0.001`), `accuracyScore` the `"Accuracy"` metric of
`utils.calculate_classification_score`. Raises `InvalidArguments` when
either data stream is `None`, before any training work. -/
def fit {P : Type} (forward : P → Image → Scores) (crossEntropy : LossFn)
    (mkSgd : ℚ → ℚ → OptStep P) (accuracyScore : List Nat → List Nat → ℚ)
    (p0 : P) (trainIter validIter : Option (List Batch)) (lr : ℚ)
    (lossC : PyVal LossFn) (optC : PyVal (OptStep P))
    (numEpochs : Nat) (checkpointEpochs : Option Nat)
    (savePath : Option String) : Except PyError (P × List EpochRecord) :=
  match trainIter, validIter with
  | some train, some valid =>
      fitLoop forward accuracyScore (resolveLoss crossEntropy lossC)
        (resolveOpt (mkSgd lr (1 / 1000)) optC) train valid savePath
        (epochIndices numEpochs checkpointEpochs) p0
  | _, _ => .error .invalidArguments

/-- The filter of src/predict.py line 36:
`[file for flag, file in zip(predict_list, file_list) if flag == 1]`. -/
def filterTarget (predictList : List Nat) (fileList : List String) : List String :=
  ((predictList.zip fileList).filter (fun p => p.1 == 1)).map (fun p => p.2)

/-- Final path component of a file path (its filename). -/
def baseName (f : String) : String :=
  (f.splitOn "/").getLastD f

/-- Modelled from the spec: `multi_processing_copyfile` (defined in
`utils.py`, which is not under src/) copies every listed file into the
destination directory, filenames unchanged; the result lists the
destination path of each copied file, in input order. -/
def multiProcessingCopyfile (files : List String) (dstPath : String) : List String :=
  files.map (fun f => dstPath ++ "/" ++ baseName f)

/-- Modelled from the spec: `EnsembleClassificationModel.predict`
(`ensemble_model.py` is not under src/) runs every sub-model's
prediction over the same batch and combines the per-model label
sequences into one label per sample by majority vote, ties broken by
the first-encountered label in the iteration order of the model
mapping. -/
def ensemblePredict (models : List (Image → Scores)) (batch : List Image) : List Nat :=
  let perModel := models.map (fun f => predictLabels f batch)
  (List.range batch.length).map
    (fun i => modeFirstSeen (perModel.map (fun ps => ps.getD i 0)))

-- Inversion of a successful epoch: the record's shape and where its
-- validation statistics come from.

theorem runEpoch_ok_inv {P : Type} (forward : P → Image → Scores)
    (accuracyScore : List Nat → List Nat → ℚ) (lossR : PyVal LossFn)
    (optR : PyVal (OptStep P)) (train valid : List Batch)
    (savePath : Option String) (epoch : Nat) (p p' : P) (r : EpochRecord)
    (h : runEpoch forward accuracyScore lossR optR train valid savePath epoch p
      = .ok (p', r)) :
    r.epochIdx = epoch
    ∧ r.checkpoint = savePath.map (fun sp =>
        checkpointName sp (epoch + 1) r.trainLoss r.validLoss r.trainAcc r.validAcc)
    ∧ ∃ st : TrainAcc P,
        trainLoop forward lossR optR train ⟨p, 0, 0, 0, 0⟩ = .ok st
        ∧ p' = st.params
        ∧ evaluation (forward st.params) accuracyScore valid (some lossR) false
            (fun (s : Unit) x => (x, s)) () = .ok (r.validAcc, some r.validLoss) := by
  unfold runEpoch at h
  split at h
  · exact absurd h (by simp)
  next st htl =>
    split at h
    · exact absurd h (by simp)
    next ev hev =>
      split at h
      · exact absurd h (by simp)
      next validLoss hv2 =>
        split at h
        · exact absurd h (by simp)
        split at h
        · exact absurd h (by simp)
        cases h
        refine ⟨rfl, rfl, st, htl, rfl, ?_⟩
        dsimp only
        rw [← hv2, Prod.mk.eta]
        exact hev

-- Inversion of a successful fit loop: one record per epoch index, each
-- produced by a successful epoch run.

theorem fitLoop_ok_inv {P : Type} (forward : P → Image → Scores)
    (accuracyScore : List Nat → List Nat → ℚ) (lossR : PyVal LossFn)
    (optR : PyVal (OptStep P)) (train valid : List Batch)
    (savePath : Option String) :
    ∀ (es : List Nat) (p pf : P) (recs : List EpochRecord),
    fitLoop forward accuracyScore lossR optR train valid savePath es p
      = .ok (pf, recs) →
    recs.length = es.length
    ∧ List.map (fun r => r.epochIdx) recs = es
    ∧ ∀ r ∈ recs, ∃ pIn pOut : P,
        runEpoch forward accuracyScore lossR optR train valid savePath
          r.epochIdx pIn = .ok (pOut, r) := by
  intro es
  induction es with
  | nil =>
      intro p pf recs h
      simp only [fitLoop] at h
      cases h
      exact ⟨rfl, rfl, by intro r hr; simp at hr⟩
  | cons e es ih =>
      intro p pf recs h
      simp only [fitLoop] at h
      split at h
      · exact absurd h (by simp)
      next r0 hre =>
        split at h
        · exact absurd h (by simp)
        next rest hrest =>
          cases h
          have hre' : runEpoch forward accuracyScore lossR optR train valid
              savePath e p = .ok (r0.1, r0.2) := by rw [hre, Prod.mk.eta]
          have hrest' : fitLoop forward accuracyScore lossR optR train valid
              savePath es r0.1 = .ok (rest.1, rest.2) := by rw [hrest, Prod.mk.eta]
          obtain ⟨hlen, hmap, hall⟩ := ih r0.1 rest.1 rest.2 hrest'
          obtain ⟨hidx, -, -⟩ := runEpoch_ok_inv forward accuracyScore lossR optR
            train valid savePath e p r0.1 r0.2 hre'
          refine ⟨by simp [hlen], by simp [hmap, hidx], ?_⟩
          intro r hr
          rcases List.mem_cons.mp hr with h1 | h1
          · subst h1
            exact ⟨p, r0.1, by rw [hidx]; exact hre'⟩
          · exact hall r h1

-- `InvalidArguments` can only come from the stream check at the top of
-- `fit`: no later stage of the pipeline produces it.

theorem trainBatch_ne_invalid {P : Type} (forward : P → Image → Scores)
    (lossR : PyVal LossFn) (optR : PyVal (OptStep P)) (st : TrainAcc P)
    (b : Batch) : trainBatch forward lossR optR st b ≠ .error .invalidArguments := by
  cases lossR <;> cases optR <;> simp [trainBatch]

theorem trainLoop_ne_invalid {P : Type} (forward : P → Image → Scores)
    (lossR : PyVal LossFn) (optR : PyVal (OptStep P)) :
    ∀ (bs : List Batch) (st : TrainAcc P),
    trainLoop forward lossR optR bs st ≠ .error .invalidArguments := by
  intro bs
  induction bs with
  | nil => intro st h; simp [trainLoop] at h
  | cons b bs ih =>
      intro st h
      simp only [trainLoop] at h
      split at h
      · next e htb =>
          injection h with he
          subst he
          exact trainBatch_ne_invalid forward lossR optR st b htb
      · next st' htb => exact ih st' h

theorem evalLoop_ne_invalid {σ : Type} (forward : Image → Scores)
    (lossC : Option (PyVal LossFn)) (tta : Bool)
    (trfmF : σ → Image → Image × σ) :
    ∀ (bs : List Batch) (acc : EvalAcc σ),
    evalLoop forward lossC tta trfmF bs acc ≠ .error .invalidArguments := by
  intro bs
  induction bs with
  | nil => intro acc h; simp [evalLoop] at h
  | cons b bs ih =>
      intro acc h
      simp only [evalLoop] at h
      split at h
      · exact ih _ h
      · split at h
        · exact ih _ h
        · split at h
          · exact ih _ h
          · simp at h
        · exact ih _ h

theorem evaluation_ne_invalid {σ : Type} (forward : Image → Scores)
    (scoreFn : List Nat → List Nat → ℚ) (testIter : List Batch)
    (lossC : Option (PyVal LossFn)) (tta : Bool)
    (trfmF : σ → Image → Image × σ) (s0 : σ) :
    evaluation forward scoreFn testIter lossC tta trfmF s0
      ≠ .error .invalidArguments := by
  intro h
  unfold evaluation at h
  split at h
  · next e hel =>
      injection h with he
      subst he
      exact evalLoop_ne_invalid forward lossC tta trfmF testIter _ hel
  · next acc hacc =>
      split at h
      · split at h
        · simp at h
        · simp at h
      · simp at h

theorem runEpoch_ne_invalid {P : Type} (forward : P → Image → Scores)
    (accuracyScore : List Nat → List Nat → ℚ) (lossR : PyVal LossFn)
    (optR : PyVal (OptStep P)) (train valid : List Batch)
    (savePath : Option String) (epoch : Nat) (p : P) :
    runEpoch forward accuracyScore lossR optR train valid savePath epoch p
      ≠ .error .invalidArguments := by
  intro h
  unfold runEpoch at h
  split at h
  · next e htl =>
      injection h with he
      subst he
      exact trainLoop_ne_invalid forward lossR optR train _ htl
  next st htl =>
    split at h
    · next e hev =>
        injection h with he
        subst he
        exact evaluation_ne_invalid (forward st.params) accuracyScore valid
          (some lossR) false (fun (s : Unit) x => (x, s)) () hev
    next ev hev =>
      split at h
      · simp at h
      next validLoss hv2 =>
        split at h
        · simp at h
        split at h
        · simp at h
        simp at h

theorem fitLoop_ne_invalid {P : Type} (forward : P → Image → Scores)
    (accuracyScore : List Nat → List Nat → ℚ) (lossR : PyVal LossFn)
    (optR : PyVal (OptStep P)) (train valid : List Batch)
    (savePath : Option String) :
    ∀ (es : List Nat) (p : P),
    fitLoop forward accuracyScore lossR optR train valid savePath es p
      ≠ .error .invalidArguments := by
  intro es
  induction es with
  | nil => intro p h; simp [fitLoop] at h
  | cons e es ih =>
      intro p h
      simp only [fitLoop] at h
      split at h
      · next err hre =>
          injection h with he
          subst he
          exact runEpoch_ne_invalid forward accuracyScore lossR optR train valid
            savePath e p hre
      next r0 hre =>
        split at h
        · next err hrest =>
            injection h with he
            subst he
            exact ih r0.1 hrest
        · simp at h

/-- C1: `Model.fit` raises `InvalidArguments` if and only if the training
stream or the validation stream argument is `None`; in that case the
result is the same error for every model, loss, optimizer and learning
rate, so no model parameter is updated and no optimizer step is performed
before the raise. -/
theorem C1_fit_invalidArguments_iff {P : Type} (forward : P → Image → Scores)
    (crossEntropy : LossFn) (mkSgd : ℚ → ℚ → OptStep P)
    (accuracyScore : List Nat → List Nat → ℚ) (p0 : P)
    (trainIter validIter : Option (List Batch)) (lr : ℚ)
    (lossC : PyVal LossFn) (optC : PyVal (OptStep P)) (numEpochs : Nat)
    (checkpointEpochs : Option Nat) (savePath : Option String) :
    (fit forward crossEntropy mkSgd accuracyScore p0 trainIter validIter lr
        lossC optC numEpochs checkpointEpochs savePath
      = .error .invalidArguments
      ↔ (trainIter = none ∨ validIter = none))
    ∧ ((trainIter = none ∨ validIter = none) →
        ∀ (Q : Type) (forward' : Q → Image → Scores) (crossEntropy' : LossFn)
          (mkSgd' : ℚ → ℚ → OptStep Q)
          (accuracyScore' : List Nat → List Nat → ℚ) (p0' : Q) (lr' : ℚ)
          (lossC' : PyVal LossFn) (optC' : PyVal (OptStep Q))
          (numEpochs' : Nat) (checkpointEpochs' : Option Nat)
          (savePath' : Option String),
          fit forward' crossEntropy' mkSgd' accuracyScore' p0' trainIter
            validIter lr' lossC' optC' numEpochs' checkpointEpochs' savePath'
          = .error .invalidArguments) := by
  refine ⟨⟨?_, ?_⟩, ?_⟩
  · intro h
    cases trainIter with
    | none => exact Or.inl rfl
    | some train =>
        cases validIter with
        | none => exact Or.inr rfl
        | some valid =>
            exact absurd (by simpa [fit] using h)
              (fitLoop_ne_invalid forward accuracyScore
                (resolveLoss crossEntropy lossC)
                (resolveOpt (mkSgd lr (1 / 1000)) optC) train valid savePath
                (epochIndices numEpochs checkpointEpochs) p0)
  · intro h
    rcases h with h | h
    · subst h; cases validIter <;> rfl
    · subst h; cases trainIter <;> rfl
  · intro h Q forward' crossEntropy' mkSgd' accuracyScore' p0' lr' lossC'
      optC' numEpochs' checkpointEpochs' savePath'
    rcases h with h | h
    · subst h; cases validIter <;> rfl
    · subst h; cases trainIter <;> rfl

/-- Witness for C1 at a concrete input: a `None` training stream makes
`fit` fail with `InvalidArguments`. -/
theorem C1_fit_invalidArguments_iff_witness :
    fit (P := Unit) (fun _ _ => [0]) (fun _ _ => 0) (fun _ _ => fun p _ => p)
      (fun _ _ => 0) () none (some []) 1 (.str "cross_entropy") (.str "sgd")
      1 none none = .error .invalidArguments :=
  (C1_fit_invalidArguments_iff (fun _ _ => [0]) (fun _ _ => 0)
    (fun _ _ => fun p _ => p) (fun _ _ => 0) () none (some []) 1
    (.str "cross_entropy") (.str "sgd") 1 none none).1.mpr (Or.inl rfl)

/-- C2 counterexample: with `num_epochs = 2` and a truthy
`checkpoint_epochs = 1`, `fit` iterates `range(2, 3)` and performs one
single pass over the training stream, not `num_epochs = 2` passes. -/
theorem C2_fit_epoch_count_counterexample :
    (fit (P := Unit) (fun _ _ => [1]) (fun _ _ => 0) (fun _ _ => fun p _ => p)
        (fun _ _ => 0) () (some [⟨[[0]], [0]⟩]) (some [⟨[[0]], [0]⟩]) 1
        (.str "cross_entropy") (.str "sgd") 2 (some 1) none).map
      (fun pr => pr.2.length) = .ok 1 ∧ (1 : Nat) ≠ 2 := by
  exact ⟨rfl, by decide⟩

/-- C2 (amended): for non-`None` streams, a successful `fit` performs
`checkpoint_epochs` passes over the training stream when that argument
is truthy (not `None` and nonzero) and `num_epochs` passes otherwise;
after each pass it evaluates accuracy and loss on the validation stream
(each record's validation statistics are those of an `evaluation` call
on the validation stream with the resolved loss). -/
theorem C2_fit_epoch_count {P : Type} (forward : P → Image → Scores)
    (crossEntropy : LossFn) (mkSgd : ℚ → ℚ → OptStep P)
    (accuracyScore : List Nat → List Nat → ℚ) (p0 : P)
    (train valid : List Batch) (lr : ℚ) (lossC : PyVal LossFn)
    (optC : PyVal (OptStep P)) (numEpochs : Nat)
    (checkpointEpochs : Option Nat) (savePath : Option String) (pf : P)
    (recs : List EpochRecord)
    (h : fit forward crossEntropy mkSgd accuracyScore p0 (some train)
      (some valid) lr lossC optC numEpochs checkpointEpochs savePath
      = .ok (pf, recs)) :
    recs.length = (match checkpointEpochs with
      | some k => if k = 0 then numEpochs else k
      | none => numEpochs)
    ∧ ∀ r ∈ recs, ∃ p' : P,
        evaluation (forward p') accuracyScore valid
          (some (resolveLoss crossEntropy lossC)) false
          (fun (s : Unit) x => (x, s)) () = .ok (r.validAcc, some r.validLoss) := by
  have h' : fitLoop forward accuracyScore (resolveLoss crossEntropy lossC)
      (resolveOpt (mkSgd lr (1 / 1000)) optC) train valid savePath
      (epochIndices numEpochs checkpointEpochs) p0 = .ok (pf, recs) := by
    simpa [fit] using h
  obtain ⟨hlen, hmap, hall⟩ := fitLoop_ok_inv forward accuracyScore
    (resolveLoss crossEntropy lossC) (resolveOpt (mkSgd lr (1 / 1000)) optC)
    train valid savePath (epochIndices numEpochs checkpointEpochs) p0 pf recs h'
  constructor
  · rw [hlen]
    unfold epochIndices
    cases checkpointEpochs with
    | none => simp
    | some k => by_cases hk : k = 0 <;> simp [hk]
  · intro r hr
    obtain ⟨pIn, pOut, hre⟩ := hall r hr
    obtain ⟨-, -, st, -, -, hev⟩ := runEpoch_ok_inv forward accuracyScore
      (resolveLoss crossEntropy lossC) (resolveOpt (mkSgd lr (1 / 1000)) optC)
      train valid savePath r.epochIdx pIn pOut r hre
    exact ⟨st.params, hev⟩

unseal Rat.add Rat.mul Rat.inv in
/-- Witness for C2 at a concrete input: a one-epoch fit over a singleton
stream produces exactly one epoch record. -/
theorem C2_fit_epoch_count_witness :
    ([(⟨0, 0, 0, 1, 0, none⟩ : EpochRecord)]).length = 1 := by
  have h : fit (P := Unit) (fun _ _ => [1]) (fun _ _ => 0)
      (fun _ _ => fun p _ => p) (fun _ _ => 0) () (some [⟨[[0]], [0]⟩])
      (some [⟨[[0]], [0]⟩]) 1 (.str "cross_entropy") (.str "sgd") 1 none none
      = .ok ((), [⟨0, 0, 0, 1, 0, none⟩]) := by rfl
  exact (C2_fit_epoch_count (P := Unit) (fun _ _ => [1]) (fun _ _ => 0)
    (fun _ _ => fun p _ => p) (fun _ _ => 0) () [⟨[[0]], [0]⟩] [⟨[[0]], [0]⟩]
    1 (.str "cross_entropy") (.str "sgd") 1 none none ()
    [⟨0, 0, 0, 1, 0, none⟩] h).1

-- Closed form of the evaluation loop without TTA and with a callable
-- loss: it concatenates labels and predictions, sums the per-batch
-- losses and counts the batches.

theorem evalLoop_noTTA_fn {σ : Type} (forward : Image → Scores) (f : LossFn)
    (trfmF : σ → Image → Image × σ) :
    ∀ (bs : List Batch) (acc : EvalAcc σ),
    evalLoop forward (some (.fn f)) false trfmF bs acc
      = .ok { rng := acc.rng,
              yTrue := acc.yTrue ++ (bs.map Batch.labels).flatten,
              yPred := acc.yPred
                ++ (bs.map (fun b => predictLabels forward b.images)).flatten,
              lossSum := acc.lossSum
                + (bs.map (fun b => f (b.images.map forward) b.labels)).sum,
              batchCount := acc.batchCount + bs.length } := by
  intro bs
  induction bs with
  | nil => intro acc; simp [evalLoop]
  | cons b bs ih =>
      intro acc
      refine Eq.trans (b := evalLoop forward (some (.fn f)) false trfmF bs
        { rng := acc.rng, yTrue := acc.yTrue ++ b.labels,
          yPred := acc.yPred ++ predictLabels forward b.images,
          lossSum := acc.lossSum + f (b.images.map forward) b.labels,
          batchCount := acc.batchCount + 1 }) rfl ?_
      rw [ih]
      simp only [List.map_cons, List.flatten_cons, List.sum_cons,
        List.length_cons, Except.ok.injEq, EvalAcc.mk.injEq]
      and_intros <;> first | rfl | simp | ring | omega

/-- C3 counterexample: with TTA enabled and a loss function supplied,
`evaluation` does not return a (score, mean loss) pair: the TTA branch
never increments `batch_count`, so the final division of the accumulated
loss raises `ZeroDivisionError` even on a nonempty stream. -/
theorem C3_evaluation_counterexample :
    evaluation (σ := Unit) (fun _ => [1]) (fun _ _ => 0) [⟨[[0]], [0]⟩]
      (some (.fn (fun _ _ => 0))) true (fun s x => (x, s)) ()
      = .error .zeroDivision := by rfl

/-- C3 (amended): with TTA disabled, a supplied loss function and a
nonempty stream, `evaluation` returns the pair of the computed score and
the mean evaluation loss: the accumulated per-batch losses divided by
the number of batches processed. With TTA enabled and a loss supplied it
instead raises `ZeroDivisionError`. -/
theorem C3_evaluation_mean_loss {σ : Type} (forward : Image → Scores)
    (scoreFn : List Nat → List Nat → ℚ) (bs : List Batch) (f : LossFn)
    (trfmF : σ → Image → Image × σ) (s0 : σ) (h : bs ≠ []) :
    evaluation forward scoreFn bs (some (.fn f)) false trfmF s0
      = .ok (scoreFn ((bs.map Batch.labels).flatten)
               ((bs.map (fun b => predictLabels forward b.images)).flatten),
             some ((bs.map (fun b => f (b.images.map forward) b.labels)).sum
               / (bs.length : ℚ))) := by
  unfold evaluation
  rw [evalLoop_noTTA_fn]
  have hlen : bs.length ≠ 0 := fun he => h (List.length_eq_zero.mp he)
  simp [lossTruthy, hlen]

unseal Rat.add Rat.mul Rat.inv in
/-- Witness for C3 at a concrete input: one batch, constant loss 1,
mean loss 1/1 = 1. -/
theorem C3_evaluation_mean_loss_witness :
    evaluation (σ := Unit) (fun _ => [1]) (fun _ _ => 0) [⟨[[0]], [0]⟩]
      (some (.fn (fun _ _ => 1))) false (fun s x => (x, s)) ()
      = .ok (0, some 1) := by
  have := C3_evaluation_mean_loss (σ := Unit) (fun _ => [1]) (fun _ _ => 0)
    [⟨[[0]], [0]⟩] (fun _ _ => 1) (fun s x => (x, s)) () (by simp)
  simpa using this

-- The state-threaded TTA map distributes over appended sample lists,
-- so per-batch threading equals threading over all samples in order.

theorem ttaBatch_append {σ : Type} (forward : Image → Scores)
    (trfmF : σ → Image → Image × σ) :
    ∀ (xs ys : List Image) (s : σ),
    ttaBatch forward trfmF s (xs ++ ys)
      = ((ttaBatch forward trfmF s xs).1
          ++ (ttaBatch forward trfmF (ttaBatch forward trfmF s xs).2 ys).1,
         (ttaBatch forward trfmF (ttaBatch forward trfmF s xs).2 ys).2) := by
  intro xs
  induction xs with
  | nil => intro ys s; simp [ttaBatch]
  | cons x xs ih =>
      intro ys s
      simp only [List.cons_append, ttaBatch, List.append_eq]
      rw [ih]

-- Closed form of the evaluation loop with TTA enabled and no loss:
-- labels are concatenated, predictions are the TTA labels of every
-- sample of every batch in order, the loss and batch counters stay 0.

theorem evalLoop_tta_none {σ : Type} (forward : Image → Scores)
    (trfmF : σ → Image → Image × σ) :
    ∀ (bs : List Batch) (acc : EvalAcc σ),
    evalLoop forward none true trfmF bs acc
      = .ok { rng := (ttaBatch forward trfmF acc.rng
                ((bs.map Batch.images).flatten)).2,
              yTrue := acc.yTrue ++ (bs.map Batch.labels).flatten,
              yPred := acc.yPred ++ (ttaBatch forward trfmF acc.rng
                ((bs.map Batch.images).flatten)).1,
              lossSum := acc.lossSum,
              batchCount := acc.batchCount } := by
  intro bs
  induction bs with
  | nil => intro acc; simp [evalLoop, ttaBatch]
  | cons b bs ih =>
      intro acc
      refine Eq.trans (b := evalLoop forward none true trfmF bs
        { rng := (ttaBatch forward trfmF acc.rng b.images).2,
          yTrue := acc.yTrue ++ b.labels,
          yPred := acc.yPred ++ (ttaBatch forward trfmF acc.rng b.images).1,
          lossSum := acc.lossSum, batchCount := acc.batchCount }) rfl ?_
      rw [ih]
      simp only [List.map_cons, List.flatten_cons, ttaBatch_append,
        Except.ok.injEq, EvalAcc.mk.injEq]
      and_intros <;> first | rfl | simp [List.append_assoc]

set_option maxHeartbeats 1600000 in
/-- C4: with TTA enabled (and no loss function), `evaluation` on any
stream predicts every single sample of every batch by TTA, in order
(threading the augmentation RNG state); each single sample is augmented
into exactly 5 copies — five sequential applications of the pipeline,
each to the original sample — each copy is predicted individually, and
the sample's predicted label is the statistical mode of those 5
per-copy predictions. -/
theorem C4_tta_five_copies_mode {σ : Type} (forward : Image → Scores)
    (scoreFn : List Nat → List Nat → ℚ) (trfmF : σ → Image → Image × σ)
    (bs : List Batch) (s0 : σ) :
    evaluation forward scoreFn bs none true trfmF s0
      = .ok (scoreFn ((bs.map Batch.labels).flatten)
          (ttaBatch forward trfmF s0 ((bs.map Batch.images).flatten)).1, none)
    ∧ (∀ (s : σ) (x : Image) (xs : List Image),
        ttaBatch forward trfmF s (x :: xs)
          = ((ttaOneSample forward trfmF s x).1
              :: (ttaBatch forward trfmF (ttaOneSample forward trfmF s x).2 xs).1,
             (ttaBatch forward trfmF (ttaOneSample forward trfmF s x).2 xs).2))
    ∧ (∀ (s : σ) (x : Image),
        ttaOneSample forward trfmF s x
          = (listMode ((ttaCopies trfmF s x).1.map
              (fun c => argmaxIdx (forward c))),
             (ttaCopies trfmF s x).2))
    ∧ ∀ (s : σ) (x : Image), (ttaCopies trfmF s x).1.length = 5 := by
  refine ⟨?_, fun s x xs => rfl, fun s x => rfl, fun s x => rfl⟩
  unfold evaluation
  rw [evalLoop_tta_none]
  simp [lossTruthy]

-- The ensemble's per-sample output is the first-seen majority vote over
-- the sub-models' argmax predictions for that sample.

theorem ensemblePredict_votes (models : List (Image → Scores))
    (batch : List Image) (i : Nat) (hi : i < batch.length) :
    (ensemblePredict models batch).getD i 0
      = modeFirstSeen (models.map (fun f => argmaxIdx (f (batch.getD i [])))) := by
  have hpt : ∀ f : Image → Scores,
      (predictLabels f batch).getD i 0 = argmaxIdx (f (batch.getD i [])) := by
    intro f
    rw [List.getD_eq_getElem _ _ (by simpa [predictLabels] using hi),
      List.getD_eq_getElem _ _ hi]
    simp [predictLabels]
  unfold ensemblePredict
  have hlen : i < ((List.range batch.length).map
      (fun j => modeFirstSeen ((models.map (fun f => predictLabels f batch)).map
        (fun ps => ps.getD j 0)))).length := by simpa using hi
  rw [List.getD_eq_getElem _ _ hlen, List.getElem_map, List.getElem_range]
  congr 1
  rw [List.map_map]
  apply List.map_congr_left
  intro f hf
  exact hpt f

/-- C5: for every sample of the batch, the spec-modelled ensemble
prediction is the most frequent label among the sub-models' per-sample
predictions; in particular, when all sub-models predict the same label
the ensemble returns it, and when three sub-models split 2-vs-1 the
ensemble returns the 2-count label. -/
theorem C5_ensemble_majority (models : List (Image → Scores))
    (batch : List Image) (i : Nat) (hi : i < batch.length) :
    ((ensemblePredict models batch).getD i 0
      = modeFirstSeen (models.map (fun f => argmaxIdx (f (batch.getD i [])))))
    ∧ (∀ c : Nat, models ≠ [] →
        (∀ f ∈ models, argmaxIdx (f (batch.getD i [])) = c) →
        (ensemblePredict models batch).getD i 0 = c)
    ∧ (∀ a : Nat, models.length = 3 →
        (models.map (fun f => argmaxIdx (f (batch.getD i [])))).count a = 2 →
        (ensemblePredict models batch).getD i 0 = a) := by
  have hbase := ensemblePredict_votes models batch i hi
  refine ⟨hbase, ?_, ?_⟩
  · intro c hne hall
    rw [hbase]
    apply modeFirstSeen_majority
    have hcnt : (models.map (fun f => argmaxIdx (f (batch.getD i [])))).count c
        = (models.map (fun f => argmaxIdx (f (batch.getD i [])))).length := by
      rw [List.count_eq_length]
      intro v hv
      obtain ⟨f, hf, rfl⟩ := List.mem_map.mp hv
      exact (hall f hf).symm
    have hpos : models.length ≠ 0 := fun he => hne (List.length_eq_zero.mp he)
    rw [hcnt]
    have hlpos : 0 < (models.map (fun f =>
        argmaxIdx (f (batch.getD i [])))).length := by
      simpa using Nat.pos_of_ne_zero hpos
    generalize (models.map (fun f =>
      argmaxIdx (f (batch.getD i [])))).length = n at hlpos ⊢
    rw [two_mul]
    exact Nat.lt_add_of_pos_left hlpos
  · intro a h3 hcnt
    rw [hbase]
    apply modeFirstSeen_majority
    rw [hcnt]
    have hml : (models.map (fun f => argmaxIdx (f (batch.getD i [])))).length
        = 3 := by simpa using h3
    rw [hml]
    decide

/-- C6: `Model.predict` returns one label per sample of the input batch,
each label being the arg-max class index of the model's scores for the
corresponding sample; when every score row has `num_classes` entries,
every returned label lies in `[0, num_classes)`. -/
theorem C6_predict_length_range (forward : Image → Scores) (X : List Image)
    (numClasses : Nat) (hlen : ∀ x ∈ X, (forward x).length = numClasses)
    (hpos : 0 < numClasses) :
    (predictLabels forward X).length = X.length
    ∧ (∀ i, i < X.length →
        (predictLabels forward X).getD i 0 = argmaxIdx (forward (X.getD i [])))
    ∧ ∀ l ∈ predictLabels forward X, l < numClasses := by
  refine ⟨by simp [predictLabels], ?_, ?_⟩
  · intro i hi
    rw [List.getD_eq_getElem _ _ (by simpa [predictLabels] using hi),
      List.getD_eq_getElem _ _ hi]
    simp [predictLabels]
  · intro l hl
    simp only [predictLabels, List.mem_map] at hl
    obtain ⟨x, hx, rfl⟩ := hl
    have hne : forward x ≠ [] := by
      intro he
      have h0 := hlen x hx
      rw [he] at h0
      simp at h0
      omega
    have hb := argmaxIdx_lt_length (forward x) hne
    rw [hlen x hx] at hb
    exact hb

/-- Witness for C6 at a concrete input: a two-class model on a batch of
one sample. -/
theorem C6_predict_length_range_witness :
    (predictLabels (fun _ => [0, 1]) [[0]]).length = 1
    ∧ ∀ l ∈ predictLabels (fun _ => [0, 1]) [[0]], l < 2 := by
  have h := C6_predict_length_range (fun _ => [0, 1]) [[0]] 2
    (by intro x hx; rfl) (by decide)
  exact ⟨h.1, h.2.2⟩

/-- Witness for C5 at a concrete input: three two-class sub-models,
splitting 2-vs-1 on a one-sample batch, yield the 2-count label. -/
theorem C5_ensemble_majority_witness :
    (ensemblePredict [fun _ => [0, 1], fun _ => [0, 1], fun _ => [1, 0]]
      [[5]]).getD 0 0 = 1 :=
  (C5_ensemble_majority [fun _ => [0, 1], fun _ => [0, 1], fun _ => [1, 0]]
    [[5]] 0 (by decide)).2.2 1 rfl (by decide)

unseal Rat.add Rat.mul Rat.inv in
/-- C7: every checkpoint written by a successful `fit` run given a save
path follows the documented naming format, and the format at epoch 1
with trainloss 0.123, validloss 0.456, trainacc 0.789, validacc 0.321
yields exactly
`{save_path}/epoch1_trainloss0.123_validloss0.456_trainacc0.789_validacc0.321.pth`. -/
theorem C7_checkpoint_format {P : Type} (forward : P → Image → Scores)
    (crossEntropy : LossFn) (mkSgd : ℚ → ℚ → OptStep P)
    (accuracyScore : List Nat → List Nat → ℚ) (p0 : P)
    (train valid : List Batch) (lr : ℚ) (lossC : PyVal LossFn)
    (optC : PyVal (OptStep P)) (numEpochs : Nat)
    (checkpointEpochs : Option Nat) (sp : String) (pf : P)
    (recs : List EpochRecord)
    (h : fit forward crossEntropy mkSgd accuracyScore p0 (some train)
      (some valid) lr lossC optC numEpochs checkpointEpochs (some sp)
      = .ok (pf, recs)) :
    (∀ r ∈ recs, r.checkpoint = some (checkpointName sp (r.epochIdx + 1)
        r.trainLoss r.validLoss r.trainAcc r.validAcc))
    ∧ checkpointName sp 1 (123/1000) (456/1000) (789/1000) (321/1000)
      = sp ++ "/epoch1_trainloss0.123_validloss0.456_trainacc0.789_validacc0.321.pth" := by
  constructor
  · intro r hr
    have h' : fitLoop forward accuracyScore (resolveLoss crossEntropy lossC)
        (resolveOpt (mkSgd lr (1 / 1000)) optC) train valid (some sp)
        (epochIndices numEpochs checkpointEpochs) p0 = .ok (pf, recs) := by
      simpa [fit] using h
    obtain ⟨-, -, hall⟩ := fitLoop_ok_inv forward accuracyScore
      (resolveLoss crossEntropy lossC) (resolveOpt (mkSgd lr (1 / 1000)) optC)
      train valid (some sp) (epochIndices numEpochs checkpointEpochs) p0 pf recs h'
    obtain ⟨pIn, pOut, hre⟩ := hall r hr
    obtain ⟨hidx, hcp, -⟩ := runEpoch_ok_inv forward accuracyScore
      (resolveLoss crossEntropy lossC) (resolveOpt (mkSgd lr (1 / 1000)) optC)
      train valid (some sp) r.epochIdx pIn pOut r hre
    simpa using hcp
  · have f1 : format3 (123 / 1000 : ℚ) = "0.123" := by rfl
    have f2 : format3 (456 / 1000 : ℚ) = "0.456" := by rfl
    have f3 : format3 (789 / 1000 : ℚ) = "0.789" := by rfl
    have f4 : format3 (321 / 1000 : ℚ) = "0.321" := by rfl
    unfold checkpointName
    rw [f1, f2, f3, f4]
    simp only [String.append_assoc]
    rfl

unseal Rat.add Rat.mul Rat.inv in
/-- Witness for C7 at a concrete input: a one-epoch fit with a save path
writes exactly the checkpoint name built from its statistics. -/
theorem C7_checkpoint_format_witness :
    (fit (P := Unit) (fun _ _ => [1]) (fun _ _ => 0) (fun _ _ => fun p _ => p)
        (fun _ _ => 0) () (some [⟨[[0]], [0]⟩]) (some [⟨[[0]], [0]⟩]) 1
        (.str "cross_entropy") (.str "sgd") 1 none (some "m")).map
      (fun pr => pr.2.map (fun r => r.checkpoint))
      = .ok [some (checkpointName "m" 1 0 0 1 0)] := by
  have h : fit (P := Unit) (fun _ _ => [1]) (fun _ _ => 0)
      (fun _ _ => fun p _ => p) (fun _ _ => 0) () (some [⟨[[0]], [0]⟩])
      (some [⟨[[0]], [0]⟩]) 1 (.str "cross_entropy") (.str "sgd") 1 none
      (some "m")
      = .ok ((), [⟨0, 0, 0, 1, 0, some (checkpointName "m" 1 0 0 1 0)⟩]) := by
    rfl
  have hmem := (C7_checkpoint_format (P := Unit) (fun _ _ => [1])
    (fun _ _ => 0) (fun _ _ => fun p _ => p) (fun _ _ => 0) ()
    [⟨[[0]], [0]⟩] [⟨[[0]], [0]⟩] 1 (.str "cross_entropy") (.str "sgd") 1
    none "m" () [⟨0, 0, 0, 1, 0, some (checkpointName "m" 1 0 0 1 0)⟩] h).1
    (⟨0, 0, 0, 1, 0, some (checkpointName "m" 1 0 0 1 0)⟩ : EpochRecord)
    (by simp)
  rw [h]
  exact hmem ▸ rfl

/-- Spec-side selection, written from the claim's words: the files whose
aggregated prediction equals the target class 1, taken in the input
file order (by index). -/
def selectedBySpec (predictList : List Nat) (fileList : List String) : List String :=
  ((List.range fileList.length).filter (fun i => predictList.getD i 0 == 1)).map
    (fun i => fileList.getD i "")

theorem filterTarget_cons (p : Nat) (ps : List Nat) (f : String)
    (fs : List String) :
    filterTarget (p :: ps) (f :: fs)
      = if p == 1 then f :: filterTarget ps fs else filterTarget ps fs := by
  simp only [filterTarget, List.zip_cons_cons, List.filter_cons]
  by_cases hp : (p == 1) = true
  · simp [hp]
  · simp [hp]

theorem selectedBySpec_cons (p : Nat) (ps : List Nat) (f : String)
    (fs : List String) :
    selectedBySpec (p :: ps) (f :: fs)
      = if p == 1 then f :: selectedBySpec ps fs else selectedBySpec ps fs := by
  unfold selectedBySpec
  rw [List.length_cons, List.range_succ_eq_map, List.filter_cons]
  simp only [List.getD_cons_zero]
  rw [List.filter_map]
  have hcomp : ((fun i => (p :: ps).getD i 0 == 1) ∘ Nat.succ)
      = fun i => ps.getD i 0 == 1 := by
    funext i
    simp
  rw [hcomp]
  by_cases hp : (p == 1) = true
  · simp [hp, List.map_map, Function.comp]
  · simp [hp, List.map_map, Function.comp]

theorem filterTarget_eq_spec : ∀ (preds : List Nat) (files : List String),
    preds.length = files.length →
    filterTarget preds files = selectedBySpec preds files := by
  intro preds files
  induction files generalizing preds with
  | nil =>
      intro h
      have hp : preds = [] := List.length_eq_zero.mp (by simpa using h)
      subst hp
      rfl
  | cons f fs ih =>
      intro h
      match preds, h with
      | p :: ps, h =>
          have h' : ps.length = fs.length := by simpa using h
          rw [filterTarget_cons, selectedBySpec_cons, ih ps h']

/-- C8: the batch-inference script keeps exactly the files whose
aggregated prediction equals the fixed target class 1, in the input
file order, and the (spec-modelled) copy step sends each kept file to
the fixed destination directory with its filename unchanged. -/
theorem C8_filter_copy (predictList : List Nat) (fileList : List String)
    (dstPath : String) (h : predictList.length = fileList.length) :
    filterTarget predictList fileList = selectedBySpec predictList fileList
    ∧ (multiProcessingCopyfile (filterTarget predictList fileList)
        dstPath).length = (filterTarget predictList fileList).length
    ∧ ∀ i, i < (filterTarget predictList fileList).length →
        (multiProcessingCopyfile (filterTarget predictList fileList)
          dstPath).getD i ""
        = dstPath ++ "/"
          ++ baseName ((filterTarget predictList fileList).getD i "") := by
  refine ⟨filterTarget_eq_spec predictList fileList h,
    by simp [multiProcessingCopyfile], ?_⟩
  intro i hi
  rw [List.getD_eq_getElem _ _ (by simpa [multiProcessingCopyfile] using hi),
    List.getD_eq_getElem _ _ hi]
  simp [multiProcessingCopyfile]

/-- Witness for C8 at a concrete input: three files, predictions 1,0,1,
the first and third are selected. -/
theorem C8_filter_copy_witness :
    filterTarget [1, 0, 1] ["d/x.png", "d/y.png", "d/z.png"]
      = selectedBySpec [1, 0, 1] ["d/x.png", "d/y.png", "d/z.png"] :=
  (C8_filter_copy [1, 0, 1] ["d/x.png", "d/y.png", "d/z.png"] "out" rfl).1

/-- C9: a `loss_criterion` string other than `"cross_entropy"` or an
`optimizer` string other than `"sgd"` (case-insensitive) is left
unconverted by the string dispatch, and `fit` with such a string and
non-`None` streams does not raise `InvalidArguments`: the raw loss
string fails with `TypeError` when called on the first batch, and (with
a callable loss) the raw optimizer string fails with `AttributeError`
at `optimizer.zero_grad()`. -/
theorem C9_unrecognized_strings {P : Type} (forward : P → Image → Scores)
    (crossEntropy : LossFn) (mkSgd : ℚ → ℚ → OptStep P)
    (accuracyScore : List Nat → List Nat → ℚ) (p0 : P) (b : Batch)
    (train valid : List Batch) (lr : ℚ) (s t : String)
    (numEpochs : Nat) (savePath : Option String)
    (hs : pyLower s ≠ "cross_entropy") (ht : pyLower t ≠ "sgd")
    (hn : 0 < numEpochs) :
    resolveLoss crossEntropy (.str s) = .str s
    ∧ resolveOpt (mkSgd lr (1 / 1000)) (.str t) = .str t
    ∧ (∀ optC : PyVal (OptStep P),
        fit forward crossEntropy mkSgd accuracyScore p0 (some (b :: train))
          (some valid) lr (.str s) optC numEpochs none savePath
        = .error .typeError)
    ∧ (∀ f : LossFn,
        fit forward crossEntropy mkSgd accuracyScore p0 (some (b :: train))
          (some valid) lr (.fn f) (.str t) numEpochs none savePath
        = .error .attributeError) := by
  have hrl : resolveLoss crossEntropy (.str s) = .str s := by
    simp [resolveLoss, hs]
  have hro : resolveOpt (mkSgd lr (1 / 1000)) (.str t) = .str t := by
    simp [resolveOpt, ht]
  have hidx : epochIndices numEpochs none
      = 0 :: (List.range (numEpochs - 1)).map Nat.succ := by
    cases numEpochs with
    | zero => omega
    | succ m => simp [epochIndices, List.range_succ_eq_map]
  refine ⟨hrl, hro, ?_, ?_⟩
  · intro optC
    show fitLoop forward accuracyScore (resolveLoss crossEntropy (.str s))
      (resolveOpt (mkSgd lr (1 / 1000)) optC) (b :: train) valid savePath
      (epochIndices numEpochs none) p0 = .error .typeError
    rw [hrl, hidx]
    rfl
  · intro f
    show fitLoop forward accuracyScore (resolveLoss crossEntropy (.fn f))
      (resolveOpt (mkSgd lr (1 / 1000)) (.str t)) (b :: train) valid savePath
      (epochIndices numEpochs none) p0 = .error .attributeError
    rw [hro, hidx]
    rfl

/-- Witness for C9 at a concrete input: `"mse"` and `"adam"` are not
recognized, so a one-epoch fit fails with `TypeError` on the raw loss
string. -/
theorem C9_unrecognized_strings_witness :
    fit (P := Unit) (fun _ _ => [1]) (fun _ _ => 0) (fun _ _ => fun p _ => p)
      (fun _ _ => 0) () (some [⟨[[0]], [0]⟩]) (some [⟨[[0]], [0]⟩]) 1
      (.str "mse") (.str "adam") 1 none none = .error .typeError :=
  (C9_unrecognized_strings (P := Unit) (fun _ _ => [1]) (fun _ _ => 0)
    (fun _ _ => fun p _ => p) (fun _ _ => 0) () ⟨[[0]], [0]⟩ [] [⟨[[0]], [0]⟩]
    1 "mse" "adam" 1 none (by decide) (by decide) (by decide)).2.2.1
    (.str "adam")

/-- C10: the TTA reduction at the call site — the scipy mode of the five
stacked single-prediction rows — returns one of the five per-copy
predictions, of maximal count among them, and among labels tied for the
maximal count it returns the numerically smallest one. -/
theorem C10_mode_tiebreak (a b c d e : Nat) :
    scipyModeFirst [[a], [b], [c], [d], [e]] ∈ [a, b, c, d, e]
    ∧ (∀ v ∈ [a, b, c, d, e], [a, b, c, d, e].count v
        ≤ [a, b, c, d, e].count (scipyModeFirst [[a], [b], [c], [d], [e]]))
    ∧ ∀ v ∈ [a, b, c, d, e], [a, b, c, d, e].count v
        = [a, b, c, d, e].count (scipyModeFirst [[a], [b], [c], [d], [e]]) →
        scipyModeFirst [[a], [b], [c], [d], [e]] ≤ v := by
  have h : scipyModeFirst [[a], [b], [c], [d], [e]]
      = listMode [a, b, c, d, e] := rfl
  rw [h]
  have hb := listMode_best [a, b, c, d, e] (by simp)
  exact ⟨hb.1, fun v hv => (hb.2 v hv).1, fun v hv => (hb.2 v hv).2⟩

/-- Witness for C10 at a concrete input: predictions 1,2,1,2,3 tie the
labels 1 and 2 at count two; the reduction returns the smallest, so it
is at most 2. -/
theorem C10_mode_tiebreak_witness :
    scipyModeFirst [[1], [2], [1], [2], [3]] ≤ 2 :=
  (C10_mode_tiebreak 1 2 1 2 3).2.2 2 (by decide) (by decide)
